import Mathlib

/-!
Verification development for the Medical-AI imaging service
(`cpp-services/src/imaging_service.h` and `cpp-services/src/main.cpp`).

The repository ships the `ImagingService` class declaration
(`imaging_service.h`) and the gRPC adapter (`main.cpp`); the member-function
bodies of `ImagingService` (`imaging_service.cpp`) are not part of the
repository, so those operations are modelled from the specification, as
indicated in each doc comment.  `double` values (confidences, durations) are
embedded as `ℚ`; byte buffers (`std::string` payloads) as `String`; the
`std::map` metadata dictionaries as association lists.
-/

namespace MedicalAI

/-- `struct BoundingBox` from imaging_service.h: four ints, pixel coords. -/
structure BoundingBox where
  x : Int
  y : Int
  width : Int
  height : Int
deriving Repr, DecidableEq

/-- `struct Finding` from imaging_service.h. -/
structure Finding where
  type : String
  description : String
  location : String
  confidence : ℚ
  severity : String
  has_bounding_box : Bool := false
  bbox : BoundingBox := ⟨0, 0, 0, 0⟩
deriving Repr, DecidableEq

/-- `struct ImageAnalysisResult` from imaging_service.h. -/
structure ImageAnalysisResult where
  analysis_id : String
  findings : List Finding
  confidence_score : ℚ
  interpretation : String
  recommendations : List String
  urgency_level : String
  model_used : String
deriving Repr, DecidableEq

/-- `struct ProcessedImage` from imaging_service.h (metadata map as assoc list). -/
structure ProcessedImage where
  series_uid : String
  image_data : String
  modality : String
  metadata : List (String × String)
deriving Repr, DecidableEq

/-- `struct DicomProcessingResult` from imaging_service.h. -/
structure DicomProcessingResult where
  metadata : List (String × String)
  processed_images : List ProcessedImage
deriving Repr, DecidableEq

/-- `struct HealthInfo` from imaging_service.h. -/
structure HealthInfo where
  uptime_seconds : ℚ
  processed_images : Nat
  average_processing_time : ℚ
deriving Repr, DecidableEq

/-- Mutable fields of `class ImagingService`: the analysis-id discriminator
counter and the two health accumulators `total_processed_images_`,
`total_processing_time_`. -/
structure ServiceState where
  id_counter : Nat
  total_processed_images : Nat
  total_processing_time : ℚ
deriving Repr, DecidableEq

/-- Freshly constructed service: counters start at zero. -/
def initState : ServiceState := ⟨0, 0, 0⟩

/-- Modelled from the spec: the minimum-reporting confidence threshold used by
`ImagingService::determineUrgencyLevel` (imaging_service.cpp is absent; the
spec fixes no numeric value, only that such a threshold exists). -/
def minReportingThreshold : ℚ := 1 / 2

/-- Modelled from the spec: rank of the ordered severity vocabulary
low/medium/high/critical carried by `Finding.severity` (a string in the
source struct); unknown labels rank lowest. -/
def sevRank (s : String) : Nat :=
  if s = "critical" then 4
  else if s = "high" then 3
  else if s = "medium" then 2
  else if s = "low" then 1
  else 0

/-- Modelled from the spec: map a severity rank to the urgency label of the
ordered set {routine, low, moderate, high, critical}. -/
def urgencyOfRank (r : Nat) : String :=
  if 4 ≤ r then "critical"
  else if r = 3 then "high"
  else if r = 2 then "moderate"
  else if r = 1 then "low"
  else "routine"

/-- Modelled from the spec: escalate an urgency label by one level, capped at
the highest level. -/
def escalateUrgency (u : String) : String :=
  if u = "routine" then "low"
  else if u = "low" then "moderate"
  else if u = "moderate" then "high"
  else "critical"

/-- Whitespace-split keyword list of a free-text field. -/
def wordsOf (s : String) : List String := s.splitOn " "

/-- Modelled from the spec: a reported symptom textually correlates with a
finding when their keyword sets overlap (symptom words vs the finding's
type/location words). -/
def symptomCorrelates (findings : List Finding) (symptoms : List String) : Bool :=
  symptoms.any fun sym => findings.any fun f =>
    (wordsOf sym).any fun w =>
      (wordsOf f.type).contains w || (wordsOf f.location).contains w

/-- The findings that clear the minimum-reporting threshold. -/
def reportedFindings (findings : List Finding) : List Finding :=
  findings.filter fun f => decide (minReportingThreshold < f.confidence)

/-- Maximum severity rank over a findings list (zero when empty). -/
def maxSevRank (findings : List Finding) : Nat :=
  (findings.map fun f => sevRank f.severity).foldr max 0

/-- Modelled from the spec: `ImagingService::determineUrgencyLevel`
(imaging_service.cpp is absent).  Urgency is driven by the maximum severity
among findings whose confidence exceeds the minimum-reporting threshold,
escalated by one level if any reported symptom correlates with a finding, and
floored at "routine" when no finding clears the threshold. -/
def determineUrgencyLevel (findings : List Finding) (symptoms : List String) : String :=
  if (reportedFindings findings).isEmpty then "routine"
  else if symptomCorrelates (reportedFindings findings) symptoms then
    escalateUrgency (urgencyOfRank (maxSevRank (reportedFindings findings)))
  else urgencyOfRank (maxSevRank (reportedFindings findings))

/-- Modelled from the spec: severity-keyed recommendation template used by
`ImagingService::generateRecommendations`. -/
def recTemplate (severity : String) : String :=
  if severity = "critical" then "Immediate specialist referral required"
  else if severity = "high" then "Urgent follow-up within 24-48 hours"
  else if severity = "medium" then "Follow-up with a specialist within 1-2 weeks"
  else "Routine follow-up as clinically indicated"

/-- Modelled from the spec: the single default recommendation for an empty
findings list. -/
def noAbnormalitiesMsg : String := "No abnormalities detected, routine follow-up"

/-- Remove duplicate strings, keeping the first occurrence of each and the
relative order of those first occurrences. -/
def dedupFirst : List String → List String
  | [] => []
  | x :: xs => x :: dedupFirst (xs.filter fun y => y ≠ x)
termination_by l => l.length
decreasing_by
  simp only [List.length_cons]
  exact Nat.lt_succ_of_le (List.length_filter_le _ _)

/-- Modelled from the spec: `ImagingService::generateRecommendations`
(imaging_service.cpp is absent).  Each finding severity maps to a template;
templates are deduplicated preserving first-trigger order; an empty findings
list yields the single default recommendation. -/
def generateRecommendations (findings : List Finding) (image_type : String) : List String :=
  if findings.isEmpty then [noAbnormalitiesMsg]
  else dedupFirst (findings.map fun f => recTemplate f.severity)

/-- Modelled from the spec: aggregate confidence of an analysis, the mean of
the finding confidences, defaulting to the fixed neutral value 1 when no
findings are present. -/
def calculateConfidence (findings : List Finding) : ℚ :=
  if findings.isEmpty then 1
  else ((findings.map fun f => f.confidence).sum) / (findings.length : ℚ)

/-- Modelled from the spec: severity label of the dominant (maximum-rank)
finding, used only for interpretation text. -/
def dominantSeverity (findings : List Finding) : String :=
  let r := maxSevRank findings
  if 4 ≤ r then "critical"
  else if r = 3 then "high"
  else if r = 2 then "medium"
  else if r = 1 then "low"
  else "unspecified"

/-- Modelled from the spec: interpretation text synthesized from the finding
count and dominant severity; always non-empty. -/
def generateInterpretation (findings : List Finding) : String :=
  if findings.isEmpty then
    "No significant abnormalities detected. Routine follow-up recommended."
  else
    "Analysis identified " ++ toString findings.length ++
      " finding(s) with dominant severity " ++ dominantSeverity findings ++ "."

/-- Decimal digit character of a value below ten. -/
def digitChar : Nat → Char
  | 0 => '0' | 1 => '1' | 2 => '2' | 3 => '3' | 4 => '4'
  | 5 => '5' | 6 => '6' | 7 => '7' | 8 => '8' | 9 => '9'
  | _ => '*'

/-- Numeric value of a decimal digit character. -/
def digitVal : Char → Nat
  | '0' => 0 | '1' => 1 | '2' => 2 | '3' => 3 | '4' => 4
  | '5' => 5 | '6' => 6 | '7' => 7 | '8' => 8 | '9' => 9
  | _ => 10

/-- Decimal representation of a natural number, most significant digit
first. -/
def natDigits (n : Nat) : List Char :=
  if h : n < 10 then [digitChar n]
  else natDigits (n / 10) ++ [digitChar (n % 10)]
termination_by n
decreasing_by
  exact Nat.div_lt_self (by omega) (by omega)

/-- Value of a decimal digit string, used to invert `natDigits`. -/
def digitsVal (l : List Char) : Nat :=
  l.foldl (fun a c => 10 * a + digitVal c) 0

/-- Modelled from the spec: `ImagingService::generateAnalysisId`
(imaging_service.cpp is absent).  The id is derived from the patient id plus
a collision-resistant discriminator; the process-wide call counter held in
`ServiceState.id_counter` plays that role. -/
def generateAnalysisId (patient_id : String) (n : Nat) : String :=
  patient_id ++ "_" ++ String.mk (natDigits n)

/-- Arguments of `ImagingService::analyzeImage` (imaging_service.h). -/
structure AnalyzeRequest where
  patient_id : String
  image_type : String
  image_data : String
  symptoms : List String
  priority : String
deriving Repr, DecidableEq

/-- Per-call behaviour of the external collaborators consumed by
`analyzeImage` (Image Decoder and AI Inference Backend, external to the core)
together with the wall-clock duration of the call: supplied as an input so
the orchestrator can be embedded as a pure function. -/
structure BackendOutcome where
  decode : Except String Unit
  inference : Except String (List Finding × String)
  duration : ℚ
deriving Repr

/-- Modelled from the spec: the per-call update of the `ImagingService`
accumulators — a fresh id discriminator is consumed and the health
accumulators accrue the call, on every path. -/
def advanceState (s : ServiceState) (bk : BackendOutcome) : ServiceState :=
  { id_counter := s.id_counter + 1
    total_processed_images := s.total_processed_images + 1
    total_processing_time := s.total_processing_time + bk.duration }

/-- Modelled from the spec: the Result Synthesizer assembling an
`ImageAnalysisResult` from the raw detections. -/
def synthesizeResult (req : AnalyzeRequest) (s : ServiceState)
    (detections : List Finding) (model_id : String) : ImageAnalysisResult :=
  { analysis_id := generateAnalysisId req.patient_id s.id_counter
    findings := detections
    confidence_score := calculateConfidence detections
    interpretation := generateInterpretation detections
    recommendations := generateRecommendations detections req.image_type
    urgency_level := determineUrgencyLevel detections req.symptoms
    model_used := model_id }

/-- Modelled from the spec: `ImagingService::analyzeImage`
(imaging_service.cpp is absent).  Validation, decode and inference failures
become structured errors with human-readable messages; the health
accumulators and the id counter advance on every path. -/
def analyzeImage (s : ServiceState) (req : AnalyzeRequest) (bk : BackendOutcome) :
    ServiceState × Except String ImageAnalysisResult :=
  (advanceState s bk,
    if req.image_data = "" then Except.error "Image data is empty"
    else match bk.decode with
      | Except.error m => Except.error ("Failed to decode image: " ++ m)
      | Except.ok _ =>
        match bk.inference with
        | Except.error m => Except.error ("AI inference failed: " ++ m)
        | Except.ok (dets, model_id) => Except.ok (synthesizeResult req s dets model_id))

/-- Arguments of `ImagingService::processDicom` (imaging_service.h). -/
structure DicomRequest where
  patient_id : String
  dicom_data : String
  analysis_types : List String
deriving Repr, DecidableEq

/-- Per-call behaviour of the external DICOM Backend collaborator. -/
structure DicomOutcome where
  extract : Except String (List (String × String) × List ProcessedImage)
deriving Repr

/-- Modelled from the spec: `ImagingService::processDicom`
(imaging_service.cpp is absent).  Parse failures become structured errors;
the health accumulators are untouched (only `analyzeImage` accrues
statistics). -/
def processDicom (s : ServiceState) (req : DicomRequest) (bk : DicomOutcome) :
    ServiceState × Except String DicomProcessingResult :=
  (s,
    if req.dicom_data = "" then Except.error "DICOM data is empty"
    else match bk.extract with
      | Except.error m => Except.error ("Failed to parse DICOM data: " ++ m)
      | Except.ok (md, imgs) => Except.ok { metadata := md, processed_images := imgs })

/-- Modelled from the spec: `ImagingService::getHealthInfo`
(imaging_service.cpp is absent; declared `const` in imaging_service.h, hence
a pure read).  Average processing time is cumulative time over the counter,
zero while the counter is zero. -/
def getHealthInfo (s : ServiceState) (uptime : ℚ) : HealthInfo :=
  { uptime_seconds := uptime
    processed_images := s.total_processed_images
    average_processing_time :=
      if s.total_processed_images = 0 then 0
      else s.total_processing_time / (s.total_processed_images : ℚ) }

/-- `getHealthInfo` as a state transformer, to state its frame property. -/
def getHealthInfoOp (s : ServiceState) (uptime : ℚ) : ServiceState × HealthInfo :=
  (s, getHealthInfo s uptime)

/-- Run a sequence of `analyzeImage` calls, threading the service state. -/
def runAnalyses (s : ServiceState) :
    List (AnalyzeRequest × BackendOutcome) →
      ServiceState × List (Except String ImageAnalysisResult)
  | [] => (s, [])
  | (r, b) :: rest =>
    let step := analyzeImage s r b
    let tail := runAnalyses step.1 rest
    (tail.1, step.2 :: tail.2)

/-- The analysis id of a successful outcome, if any. -/
def okId : Except String ImageAnalysisResult → Option String
  | Except.ok r => some r.analysis_id
  | Except.error _ => none

/-- `medical_imaging.ImageAnalysisResponse` as populated by main.cpp
(proto3 fields default to empty/zero/false). -/
structure ImageAnalysisResponse where
  analysis_id : String := ""
  patient_id : String := ""
  confidence_score : ℚ := 0
  interpretation : String := ""
  urgency_level : String := ""
  processing_time_ms : ℚ := 0
  model_used : String := ""
  success : Bool := false
  findings : List Finding := []
  recommendations : List String := []
  error_message : String := ""
deriving Repr, DecidableEq

/-- The gRPC status returned by a handler in main.cpp. -/
inductive GrpcStatus where
  | ok
  | internal (msg : String)
deriving Repr, DecidableEq

/-- `MedicalImagingServiceImpl::AnalyzeImage` from main.cpp: calls the
service inside a try/catch; on success it populates the response and sets
`success = true`; a caught exception sets `success = false` and
`error_message` to the exception text and returns an INTERNAL status — the
handler always returns a well-formed response. -/
def AnalyzeImageHandler (s : ServiceState) (req : AnalyzeRequest) (bk : BackendOutcome)
    (elapsed_ms : ℚ) : ServiceState × ImageAnalysisResponse × GrpcStatus :=
  match analyzeImage s req bk with
  | (s2, Except.ok result) =>
    (s2,
      { analysis_id := result.analysis_id
        patient_id := req.patient_id
        confidence_score := result.confidence_score
        interpretation := result.interpretation
        urgency_level := result.urgency_level
        processing_time_ms := elapsed_ms
        model_used := result.model_used
        success := true
        findings := result.findings
        recommendations := result.recommendations
        error_message := "" },
      GrpcStatus.ok)
  | (s2, Except.error msg) =>
    (s2, { success := false, error_message := msg }, GrpcStatus.internal msg)

/-- `medical_imaging.DicomProcessingResponse` as populated by main.cpp. -/
structure DicomProcessingResponse where
  patient_id : String := ""
  success : Bool := false
  dicom_metadata : List (String × String) := []
  processed_images : List ProcessedImage := []
  error_message : String := ""
deriving Repr, DecidableEq

/-- `MedicalImagingServiceImpl::ProcessDicom` from main.cpp: same try/catch
envelope discipline as `AnalyzeImageHandler`. -/
def ProcessDicomHandler (s : ServiceState) (req : DicomRequest) (bk : DicomOutcome) :
    ServiceState × DicomProcessingResponse × GrpcStatus :=
  match processDicom s req bk with
  | (s2, Except.ok result) =>
    (s2,
      { patient_id := req.patient_id
        success := true
        dicom_metadata := result.metadata
        processed_images := result.processed_images
        error_message := "" },
      GrpcStatus.ok)
  | (s2, Except.error msg) =>
    (s2, { success := false, error_message := msg }, GrpcStatus.internal msg)

/-- `medical_imaging.HealthCheckResponse` as populated by main.cpp. -/
structure HealthCheckResponse where
  status : String := ""
  uptime_seconds : ℚ := 0
  processed_images : Nat := 0
  average_processing_time : ℚ := 0
deriving Repr, DecidableEq

/-- `MedicalImagingServiceImpl::HealthCheck` from main.cpp: reads the health
info and sets the status field to the constant "healthy". -/
def HealthCheckHandler (s : ServiceState) (uptime : ℚ) : HealthCheckResponse :=
  let health_info := getHealthInfo s uptime
  { status := "healthy"
    uptime_seconds := health_info.uptime_seconds
    processed_images := health_info.processed_images
    average_processing_time := health_info.average_processing_time }

/-! ## Helper lemmas -/

theorem le_foldr_max {l : List Nat} {a : Nat} (h : a ∈ l) : a ≤ l.foldr max 0 := by
  induction l with
  | nil => cases h
  | cons x xs ih =>
    rcases List.mem_cons.mp h with rfl | hx
    · exact Nat.le_max_left _ _
    · exact le_trans (ih hx) (Nat.le_max_right _ _)

theorem sevRank_mem_le_maxSevRank {findings : List Finding} {f : Finding}
    (h : f ∈ findings) : sevRank f.severity ≤ maxSevRank findings :=
  le_foldr_max (List.mem_map_of_mem _ h)

theorem escalateUrgency_critical : escalateUrgency "critical" = "critical" := by decide

theorem urgencyOfRank_of_four {r : Nat} (h : 4 ≤ r) : urgencyOfRank r = "critical" := by
  unfold urgencyOfRank
  rw [if_pos h]

theorem conf_sum_nonneg (l : List ℚ) (h : ∀ x ∈ l, 0 ≤ x) : 0 ≤ l.sum := by
  induction l with
  | nil => simp
  | cons x xs ih =>
    rw [List.sum_cons]
    have hx := h x (List.mem_cons_self x xs)
    have hxs := ih fun y hy => h y (List.mem_cons_of_mem x hy)
    linarith

theorem conf_sum_le_length (l : List ℚ) (h : ∀ x ∈ l, x ≤ 1) : l.sum ≤ (l.length : ℚ) := by
  induction l with
  | nil => simp
  | cons x xs ih =>
    rw [List.sum_cons, List.length_cons]
    have hx := h x (List.mem_cons_self x xs)
    have hxs := ih fun y hy => h y (List.mem_cons_of_mem x hy)
    push_cast
    linarith

theorem analyzeImage_ok_inv {s : ServiceState} {req : AnalyzeRequest} {bk : BackendOutcome}
    {r : ImageAnalysisResult} (hok : (analyzeImage s req bk).2 = Except.ok r) :
    ∃ dets model_id, bk.inference = Except.ok (dets, model_id) ∧
      r = synthesizeResult req s dets model_id := by
  unfold analyzeImage at hok
  simp only at hok
  split at hok
  · cases hok
  · rcases hd : bk.decode with m | u <;> rw [hd] at hok
    · cases hok
    · rcases hi : bk.inference with m | p <;> rw [hi] at hok
      · cases hok
      · rcases p with ⟨dets, model_id⟩
        injection hok with h
        exact ⟨dets, model_id, rfl, h.symm⟩

/-! ## Claim theorems -/

/-- C1: a finding with severity "critical" and confidence above the
minimum-reporting threshold forces `determineUrgencyLevel` to return the
highest urgency level, whatever the other findings and symptoms are. -/
theorem critical_finding_forces_critical_urgency
    (findings : List Finding) (symptoms : List String) (f : Finding)
    (hmem : f ∈ findings) (hsev : f.severity = "critical")
    (hconf : minReportingThreshold < f.confidence) :
    determineUrgencyLevel findings symptoms = "critical" := by
  have hrep : f ∈ reportedFindings findings := by
    unfold reportedFindings
    rw [List.mem_filter]
    exact ⟨hmem, by simpa using hconf⟩
  have hrank : 4 ≤ maxSevRank (reportedFindings findings) := by
    have h4 : sevRank f.severity = 4 := by rw [hsev]; rfl
    have := sevRank_mem_le_maxSevRank hrep
    omega
  have hbase : urgencyOfRank (maxSevRank (reportedFindings findings)) = "critical" :=
    urgencyOfRank_of_four hrank
  have hne : (reportedFindings findings).isEmpty = false := by
    rcases hcase : reportedFindings findings with _ | ⟨a, l⟩
    · rw [hcase] at hrep; cases hrep
    · rfl
  unfold determineUrgencyLevel
  rw [hne]
  simp only [Bool.false_eq_true, if_false]
  split
  · rw [hbase, escalateUrgency_critical]
  · exact hbase

/-- C1 witness: a concrete two-finding list where the low-severity finding
does not prevent the critical one from forcing the top urgency level. -/
theorem critical_finding_forces_critical_urgency_witness :
    determineUrgencyLevel
      [⟨"opacity", "small opacity", "lung base", 3/10, "low", false, ⟨0,0,0,0⟩⟩,
       ⟨"mass", "large mass", "right lung", 9/10, "critical", false, ⟨0,0,0,0⟩⟩]
      ["persistent cough"] = "critical" :=
  critical_finding_forces_critical_urgency _ _
    ⟨"mass", "large mass", "right lung", 9/10, "critical", false, ⟨0,0,0,0⟩⟩
    (by simp) rfl (by norm_num [minReportingThreshold])

/-- C3: a successful `analyzeImage` outcome whose findings list is empty has
urgency "routine", exactly the single default recommendation, and a
non-empty interpretation. -/
theorem empty_findings_routine_result
    (s : ServiceState) (req : AnalyzeRequest) (bk : BackendOutcome)
    (r : ImageAnalysisResult)
    (hok : (analyzeImage s req bk).2 = Except.ok r) (hempty : r.findings = []) :
    r.urgency_level = "routine" ∧
    r.recommendations = [noAbnormalitiesMsg] ∧
    r.interpretation ≠ "" := by
  rcases analyzeImage_ok_inv hok with ⟨dets, model_id, _, rfl⟩
  have hdets : dets = [] := hempty
  subst hdets
  refine ⟨rfl, rfl, ?_⟩
  show generateInterpretation [] ≠ ""
  decide

/-- C3 witness: a concrete successful call whose inference reports no
detections. -/
theorem empty_findings_routine_result_witness :
    ((analyzeImage initState ⟨"p1", "chest_xray", "img-bytes", [], "routine"⟩
        ⟨Except.ok (), Except.ok ([], "chest-model-v1"), 3⟩).2 =
      Except.ok (synthesizeResult ⟨"p1", "chest_xray", "img-bytes", [], "routine"⟩
        initState [] "chest-model-v1")) ∧
    (synthesizeResult ⟨"p1", "chest_xray", "img-bytes", [], "routine"⟩
        initState [] "chest-model-v1").urgency_level = "routine" ∧
    (synthesizeResult ⟨"p1", "chest_xray", "img-bytes", [], "routine"⟩
        initState [] "chest-model-v1").recommendations = [noAbnormalitiesMsg] ∧
    (synthesizeResult ⟨"p1", "chest_xray", "img-bytes", [], "routine"⟩
        initState [] "chest-model-v1").interpretation ≠ "" :=
  ⟨rfl, empty_findings_routine_result initState
    ⟨"p1", "chest_xray", "img-bytes", [], "routine"⟩
    ⟨Except.ok (), Except.ok ([], "chest-model-v1"), 3⟩
    (synthesizeResult ⟨"p1", "chest_xray", "img-bytes", [], "routine"⟩
      initState [] "chest-model-v1")
    rfl rfl⟩

/-- C4: when every finding confidence lies in [0,1] the aggregate confidence
score lies in [0,1], and the empty findings list gets the fixed neutral
default 1 instead of an empty mean. -/
theorem confidence_score_bounds (findings : List Finding)
    (h : ∀ f ∈ findings, 0 ≤ f.confidence ∧ f.confidence ≤ 1) :
    (0 ≤ calculateConfidence findings ∧ calculateConfidence findings ≤ 1) ∧
    calculateConfidence [] = 1 := by
  refine ⟨?_, rfl⟩
  unfold calculateConfidence
  rcases findings with _ | ⟨f0, rest⟩
  · norm_num
  · simp only [List.isEmpty_cons, Bool.false_eq_true, if_false]
    have hlen : (0 : ℚ) < (((f0 :: rest : List Finding)).length : ℚ) := by
      exact_mod_cast Nat.succ_pos rest.length
    have hnn : 0 ≤ (((f0 :: rest : List Finding)).map fun f => f.confidence).sum := by
      refine conf_sum_nonneg _ fun x hx => ?_
      rcases List.mem_map.mp hx with ⟨f, hf, rfl⟩
      exact (h f hf).1
    have hub : (((f0 :: rest : List Finding)).map fun f => f.confidence).sum ≤
        (((f0 :: rest : List Finding)).length : ℚ) := by
      have h2 := conf_sum_le_length (((f0 :: rest : List Finding)).map fun f => f.confidence)
        fun x hx => by
          rcases List.mem_map.mp hx with ⟨f, hf, rfl⟩
          exact (h f hf).2
      simpa using h2
    exact ⟨div_nonneg hnn hlen.le, (div_le_one hlen).mpr hub⟩

/-- C4 witness: two in-range confidences give an in-range aggregate. -/
theorem confidence_score_bounds_witness :
    (0 ≤ calculateConfidence
        [⟨"nodule", "d", "lung", 1/2, "low", false, ⟨0,0,0,0⟩⟩,
         ⟨"mass", "d", "lung", 3/4, "high", false, ⟨0,0,0,0⟩⟩] ∧
      calculateConfidence
        [⟨"nodule", "d", "lung", 1/2, "low", false, ⟨0,0,0,0⟩⟩,
         ⟨"mass", "d", "lung", 3/4, "high", false, ⟨0,0,0,0⟩⟩] ≤ 1) ∧
    calculateConfidence [] = 1 :=
  confidence_score_bounds _ (by
    intro f hf
    rcases List.mem_cons.mp hf with rfl | hf
    · exact ⟨by norm_num, by norm_num⟩
    · rcases List.mem_cons.mp hf with rfl | hf
      · exact ⟨by norm_num, by norm_num⟩
      · cases hf)

/-- C7: every `analyzeImage` call, on every internal path, bumps the
processed-image counter by one and accrues the call duration into the
cumulative processing time. -/
theorem analyzeImage_updates_accumulators
    (s : ServiceState) (req : AnalyzeRequest) (bk : BackendOutcome) :
    (analyzeImage s req bk).1.total_processed_images = s.total_processed_images + 1 ∧
    (analyzeImage s req bk).1.total_processing_time =
      s.total_processing_time + bk.duration :=
  ⟨rfl, rfl⟩

/-- C9: `processDicom` leaves the whole service state (in particular the two
health accumulators) unchanged, and `getHealthInfo` is a pure read that also
leaves the state unchanged. -/
theorem processDicom_preserves_state
    (s : ServiceState) (req : DicomRequest) (bk : DicomOutcome) (u : ℚ) :
    (processDicom s req bk).1 = s ∧ (getHealthInfoOp s u).1 = s :=
  ⟨rfl, rfl⟩

/-- A string with a non-empty prefix is non-empty. -/
theorem append_ne_empty (a b : String) (ha : a ≠ "") : a ++ b ≠ "" := by
  intro hc
  apply ha
  have hd : a.data ++ b.data = [] := by
    rw [← String.data_append, hc]
  have hda : a.data = [] := (List.append_eq_nil.mp hd).1
  cases a with
  | mk l =>
    cases hda
    rfl

/-- Every error produced by the modelled `analyzeImage` carries a non-empty
message. -/
theorem analyzeImage_error_ne_empty {s : ServiceState} {req : AnalyzeRequest}
    {bk : BackendOutcome} {msg : String}
    (herr : (analyzeImage s req bk).2 = Except.error msg) : msg ≠ "" := by
  unfold analyzeImage at herr
  simp only at herr
  split at herr
  · injection herr with h
    subst h
    decide
  · rcases hd : bk.decode with m | u <;> rw [hd] at herr
    · injection herr with h
      subst h
      exact append_ne_empty _ _ (by decide)
    · rcases hi : bk.inference with m | p <;> rw [hi] at herr
      · injection herr with h
        subst h
        exact append_ne_empty _ _ (by decide)
      · rcases p with ⟨dets, model_id⟩
        cases herr

/-- Every error produced by the modelled `processDicom` carries a non-empty
message. -/
theorem processDicom_error_ne_empty {s : ServiceState} {req : DicomRequest}
    {bk : DicomOutcome} {msg : String}
    (herr : (processDicom s req bk).2 = Except.error msg) : msg ≠ "" := by
  unfold processDicom at herr
  simp only at herr
  split at herr
  · injection herr with h
    subst h
    decide
  · rcases hd : bk.extract with m | p <;> rw [hd] at herr
    · injection herr with h
      subst h
      exact append_ne_empty _ _ (by decide)
    · rcases p with ⟨md, imgs⟩
      cases herr

/-- C2: whenever the service-layer call behind `AnalyzeImage` or
`ProcessDicom` fails, the adapter (main.cpp) returns a well-formed envelope
with `success = false` and a non-empty `error_message`; the handlers are
total, so no fault propagates past the two entry points. -/
theorem failure_envelope_wellformed :
    (∀ (s : ServiceState) (req : AnalyzeRequest) (bk : BackendOutcome) (e : ℚ) (msg : String),
      (analyzeImage s req bk).2 = Except.error msg →
        (AnalyzeImageHandler s req bk e).2.1.success = false ∧
        (AnalyzeImageHandler s req bk e).2.1.error_message ≠ "") ∧
    (∀ (s : ServiceState) (req : DicomRequest) (bk : DicomOutcome) (msg : String),
      (processDicom s req bk).2 = Except.error msg →
        (ProcessDicomHandler s req bk).2.1.success = false ∧
        (ProcessDicomHandler s req bk).2.1.error_message ≠ "") := by
  constructor
  · intro s req bk e msg herr
    have hne := analyzeImage_error_ne_empty herr
    rcases hA : analyzeImage s req bk with ⟨s2, res⟩
    rw [hA] at herr
    simp only at herr
    subst herr
    simp only [AnalyzeImageHandler, hA]
    exact ⟨trivial, hne⟩
  · intro s req bk msg herr
    have hne := processDicom_error_ne_empty herr
    rcases hA : processDicom s req bk with ⟨s2, res⟩
    rw [hA] at herr
    simp only at herr
    subst herr
    simp only [ProcessDicomHandler, hA]
    exact ⟨trivial, hne⟩

/-- C2 witness: a concrete empty-payload `AnalyzeImage` call and a concrete
malformed-DICOM `ProcessDicom` call both yield failure envelopes. -/
theorem failure_envelope_wellformed_witness :
    ((AnalyzeImageHandler initState ⟨"p1", "xray", "", [], "routine"⟩
        ⟨Except.ok (), Except.ok ([], "m"), 0⟩ 0).2.1.success = false ∧
      (AnalyzeImageHandler initState ⟨"p1", "xray", "", [], "routine"⟩
        ⟨Except.ok (), Except.ok ([], "m"), 0⟩ 0).2.1.error_message ≠ "") ∧
    ((ProcessDicomHandler initState ⟨"p1", "dcm-bytes", []⟩
        ⟨Except.error "bad tag"⟩).2.1.success = false ∧
      (ProcessDicomHandler initState ⟨"p1", "dcm-bytes", []⟩
        ⟨Except.error "bad tag"⟩).2.1.error_message ≠ "") :=
  ⟨failure_envelope_wellformed.1 initState ⟨"p1", "xray", "", [], "routine"⟩
      ⟨Except.ok (), Except.ok ([], "m"), 0⟩ 0 "Image data is empty" rfl,
    failure_envelope_wellformed.2 initState ⟨"p1", "dcm-bytes", []⟩
      ⟨Except.error "bad tag"⟩ ("Failed to parse DICOM data: " ++ "bad tag") rfl⟩

/-- Membership is preserved by first-occurrence deduplication. -/
theorem mem_dedupFirst (l : List String) (a : String) : a ∈ dedupFirst l ↔ a ∈ l := by
  induction l using dedupFirst.induct with
  | case1 => rw [dedupFirst]
  | case2 x xs ih =>
    rw [dedupFirst]
    rw [List.mem_cons, List.mem_cons, ih, List.mem_filter]
    rcases eq_or_ne a x with rfl | hne
    · simp
    · simp [hne]

/-- First-occurrence deduplication produces a duplicate-free list. -/
theorem nodup_dedupFirst (l : List String) : (dedupFirst l).Nodup := by
  induction l using dedupFirst.induct with
  | case1 => rw [dedupFirst]; exact List.nodup_nil
  | case2 x xs ih =>
    rw [dedupFirst]
    refine List.Nodup.cons ?_ ih
    intro hx
    have := (mem_dedupFirst _ _).mp hx
    rw [List.mem_filter] at this
    simpa using this.2

/-- Filtering preserves the relative order of first occurrences. -/
theorem indexOf_filter_lt_iff (p : String → Bool) :
    ∀ (l : List String) (a b : String), a ∈ l.filter p → b ∈ l.filter p →
      (((l.filter p).indexOf a < (l.filter p).indexOf b) ↔ (l.indexOf a < l.indexOf b)) := by
  intro l
  induction l with
  | nil => intro a b ha _; cases ha
  | cons c l2 ih =>
    intro a b ha hb
    by_cases hp : p c
    · rw [List.filter_cons_of_pos hp] at ha hb ⊢
      rcases eq_or_ne a c with rfl | hac
      · rcases eq_or_ne b a with rfl | hbc
        · rw [List.indexOf_cons_self, List.indexOf_cons_self]
        · rw [List.indexOf_cons_self, List.indexOf_cons_self,
            List.indexOf_cons_ne _ (Ne.symm hbc), List.indexOf_cons_ne _ (Ne.symm hbc)]
          simp [Nat.succ_pos]
      · rw [List.indexOf_cons_ne _ (Ne.symm hac), List.indexOf_cons_ne _ (Ne.symm hac)]
        rcases eq_or_ne b c with rfl | hbcne
        · rw [List.indexOf_cons_self, List.indexOf_cons_self]
          simp
        · rw [List.indexOf_cons_ne _ (Ne.symm hbcne), List.indexOf_cons_ne _ (Ne.symm hbcne)]
          have ha2 : a ∈ l2.filter p := by
            rcases List.mem_cons.mp ha with h | h
            · exact absurd h hac
            · exact h
          have hb2 : b ∈ l2.filter p := by
            rcases List.mem_cons.mp hb with h | h
            · exact absurd h hbcne
            · exact h
          rw [Nat.succ_lt_succ_iff, Nat.succ_lt_succ_iff]
          exact ih a b ha2 hb2
    · rw [List.filter_cons_of_neg hp] at ha hb ⊢
      have hac : a ≠ c := by
        rintro rfl
        exact hp (List.of_mem_filter ha)
      have hbc : b ≠ c := by
        rintro rfl
        exact hp (List.of_mem_filter hb)
      rw [List.indexOf_cons_ne _ (Ne.symm hac), List.indexOf_cons_ne _ (Ne.symm hbc),
        Nat.succ_lt_succ_iff]
      exact ih a b ha hb

/-- The deduplicated list is ordered by first-occurrence index in the
original list. -/
theorem pairwise_indexOf_dedupFirst (l : List String) :
    (dedupFirst l).Pairwise fun a b => l.indexOf a < l.indexOf b := by
  induction l using dedupFirst.induct with
  | case1 => rw [dedupFirst]; exact List.Pairwise.nil
  | case2 x xs ih =>
    rw [dedupFirst]
    refine List.Pairwise.cons ?_ ?_
    · intro b hb
      have hbf : b ∈ xs.filter fun y => y ≠ x := (mem_dedupFirst _ _).mp hb
      have hbx : b ≠ x := by
        have := List.of_mem_filter hbf
        simpa using this
      rw [List.indexOf_cons_self, List.indexOf_cons_ne _ (Ne.symm hbx)]
      exact Nat.succ_pos _
    · refine List.Pairwise.imp_of_mem ?_ ih
      intro a b ha hb hlt
      have haf : a ∈ xs.filter fun y => y ≠ x := (mem_dedupFirst _ _).mp ha
      have hbf : b ∈ xs.filter fun y => y ≠ x := (mem_dedupFirst _ _).mp hb
      have hax : a ≠ x := by simpa using List.of_mem_filter haf
      have hbx : b ≠ x := by simpa using List.of_mem_filter hbf
      have hxs : xs.indexOf a < xs.indexOf b :=
        (indexOf_filter_lt_iff _ xs a b haf hbf).mp hlt
      rw [List.indexOf_cons_ne _ (Ne.symm hax), List.indexOf_cons_ne _ (Ne.symm hbx)]
      exact Nat.succ_lt_succ hxs

/-- C5: the recommendation list never contains a duplicate text; on a
non-empty findings list it consists of exactly the triggered templates, in
the order in which they were first triggered. -/
theorem recommendations_nodup_first_order (findings : List Finding) (image_type : String) :
    (generateRecommendations findings image_type).Nodup ∧
    (findings ≠ [] →
      (∀ r, r ∈ generateRecommendations findings image_type ↔
        r ∈ findings.map fun f => recTemplate f.severity) ∧
      (generateRecommendations findings image_type).Pairwise fun a b =>
        (findings.map fun f => recTemplate f.severity).indexOf a <
          (findings.map fun f => recTemplate f.severity).indexOf b) := by
  unfold generateRecommendations
  rcases findings with _ | ⟨f0, rest⟩
  · exact ⟨by simp, fun hne => absurd rfl hne⟩
  · simp only [List.isEmpty_cons, Bool.false_eq_true, if_false]
    refine ⟨nodup_dedupFirst _, fun _ => ⟨fun r => mem_dedupFirst _ _, ?_⟩⟩
    exact pairwise_indexOf_dedupFirst _

/-- C5 witness: two findings sharing the "critical" template plus one "high"
finding produce a two-element duplicate-free list in first-trigger order. -/
theorem recommendations_nodup_first_order_witness :
    ([⟨"mass", "d1", "lung", 9/10, "critical", false, ⟨0,0,0,0⟩⟩,
      ⟨"fracture", "d2", "rib", 8/10, "critical", false, ⟨0,0,0,0⟩⟩,
      ⟨"nodule", "d3", "lung", 7/10, "high", false, ⟨0,0,0,0⟩⟩] ≠ ([] : List Finding)) ∧
    (generateRecommendations
        [⟨"mass", "d1", "lung", 9/10, "critical", false, ⟨0,0,0,0⟩⟩,
         ⟨"fracture", "d2", "rib", 8/10, "critical", false, ⟨0,0,0,0⟩⟩,
         ⟨"nodule", "d3", "lung", 7/10, "high", false, ⟨0,0,0,0⟩⟩] "xray").Nodup :=
  ⟨by simp,
    (recommendations_nodup_first_order
      [⟨"mass", "d1", "lung", 9/10, "critical", false, ⟨0,0,0,0⟩⟩,
       ⟨"fracture", "d2", "rib", 8/10, "critical", false, ⟨0,0,0,0⟩⟩,
       ⟨"nodule", "d3", "lung", 7/10, "high", false, ⟨0,0,0,0⟩⟩] "xray").1⟩

/-- `digitChar` never produces the underscore separator. -/
theorem digitChar_ne_underscore (k : Nat) : digitChar k ≠ '_' := by
  match k with
  | 0 | 1 | 2 | 3 | 4 | 5 | 6 | 7 | 8 | 9 => decide
  | n + 10 =>
    show ('*' : Char) ≠ '_'
    decide

/-- No character of a decimal representation is the underscore separator. -/
theorem natDigits_ne_underscore (n : Nat) : ∀ c ∈ natDigits n, c ≠ '_' := by
  induction n using natDigits.induct with
  | case1 n h =>
    rw [natDigits, dif_pos h]
    intro c hc
    rw [List.mem_singleton] at hc
    subst hc
    exact digitChar_ne_underscore n
  | case2 n h ih =>
    rw [natDigits, dif_neg h]
    intro c hc
    rcases List.mem_append.mp hc with hc | hc
    · exact ih c hc
    · rw [List.mem_singleton] at hc
      subst hc
      exact digitChar_ne_underscore _

/-- `digitVal` inverts `digitChar` on proper digits. -/
theorem digitVal_digitChar (k : Nat) (h : k < 10) : digitVal (digitChar k) = k := by
  interval_cases k <;> rfl

/-- `digitsVal` inverts `natDigits`. -/
theorem digitsVal_natDigits (n : Nat) : digitsVal (natDigits n) = n := by
  induction n using natDigits.induct with
  | case1 n h =>
    rw [natDigits, dif_pos h]
    show 10 * 0 + digitVal (digitChar n) = n
    rw [digitVal_digitChar n h]
    omega
  | case2 n h ih =>
    rw [natDigits, dif_neg h]
    unfold digitsVal
    rw [List.foldl_append]
    have hmod : digitVal (digitChar (n % 10)) = n % 10 :=
      digitVal_digitChar _ (Nat.mod_lt _ (by omega))
    show 10 * digitsVal (natDigits (n / 10)) + digitVal (digitChar (n % 10)) = n
    rw [ih, hmod]
    omega

/-- Decimal representations are injective. -/
theorem natDigits_injective {m n : Nat} (h : natDigits m = natDigits n) : m = n := by
  rw [← digitsVal_natDigits m, ← digitsVal_natDigits n, h]

/-- Two separator-terminated encodings agree on their suffix when the
separator occurs in neither suffix. -/
theorem suffix_eq_of_sep_append_eq :
    ∀ (a b d1 d2 : List Char), ('_' ∉ d1) → ('_' ∉ d2) →
      a ++ '_' :: d1 = b ++ '_' :: d2 → d1 = d2 := by
  intro a
  induction a with
  | nil =>
    intro b d1 d2 h1 h2 heq
    rcases b with _ | ⟨c, b2⟩
    · exact (List.cons_eq_cons.mp heq).2
    · rcases List.cons_eq_cons.mp heq with ⟨_, ht⟩
      exfalso
      apply h1
      rw [ht]
      exact List.mem_append_right _ (List.mem_cons_self _ _)
  | cons c a2 ih =>
    intro b d1 d2 h1 h2 heq
    rcases b with _ | ⟨c2, b2⟩
    · rcases List.cons_eq_cons.mp heq with ⟨_, ht⟩
      exfalso
      apply h2
      rw [← ht]
      exact List.mem_append_right _ (List.mem_cons_self _ _)
    · rcases List.cons_eq_cons.mp heq with ⟨_, ht⟩
      exact ih b2 d1 d2 h1 h2 ht

/-- Character data of a generated analysis id. -/
theorem generateAnalysisId_data (p : String) (n : Nat) :
    (generateAnalysisId p n).data = p.data ++ '_' :: natDigits n := by
  unfold generateAnalysisId
  rw [String.data_append, String.data_append]
  rw [List.append_assoc]
  rfl

/-- The discriminator counter is recoverable from a generated id: two equal
ids were generated with equal counters, whatever the patient ids. -/
theorem generateAnalysisId_counter_inj {p1 p2 : String} {m n : Nat}
    (h : generateAnalysisId p1 m = generateAnalysisId p2 n) : m = n := by
  have hd := congrArg String.data h
  rw [generateAnalysisId_data, generateAnalysisId_data] at hd
  have hsuf : natDigits m = natDigits n := by
    refine suffix_eq_of_sep_append_eq p1.data p2.data _ _ ?_ ?_ hd
    · intro hc
      exact natDigits_ne_underscore m _ hc rfl
    · intro hc
      exact natDigits_ne_underscore n _ hc rfl
  exact natDigits_injective hsuf

/-- The id of a successful `analyzeImage` call is generated from the state's
current counter value. -/
theorem analyzeImage_ok_id {s : ServiceState} {req : AnalyzeRequest} {bk : BackendOutcome}
    {res : ImageAnalysisResult} (hok : (analyzeImage s req bk).2 = Except.ok res) :
    res.analysis_id = generateAnalysisId req.patient_id s.id_counter := by
  rcases analyzeImage_ok_inv hok with ⟨dets, model_id, _, rfl⟩
  rfl

/-- Every id emitted by a run was generated with a counter at least the
starting counter. -/
theorem runAnalyses_ids_lower_bound :
    ∀ (calls : List (AnalyzeRequest × BackendOutcome)) (s : ServiceState) (id : String),
      id ∈ (runAnalyses s calls).2.filterMap okId →
      ∃ p n, s.id_counter ≤ n ∧ id = generateAnalysisId p n := by
  intro calls
  induction calls with
  | nil =>
    intro s id h
    rw [runAnalyses] at h
    cases h
  | cons c rest ih =>
    intro s id h
    rcases c with ⟨r, b⟩
    rw [runAnalyses] at h
    rw [List.filterMap_cons] at h
    rcases hres : (analyzeImage s r b).2 with m | res <;> rw [hres] at h
    · simp only [okId] at h
      rcases ih (analyzeImage s r b).1 id h with ⟨p, n, hn, hid⟩
      refine ⟨p, n, ?_, hid⟩
      have : (analyzeImage s r b).1.id_counter = s.id_counter + 1 := rfl
      omega
    · simp only [okId] at h
      rcases List.mem_cons.mp h with rfl | h2
      · exact ⟨r.patient_id, s.id_counter, le_refl _, analyzeImage_ok_id hres⟩
      · rcases ih (analyzeImage s r b).1 id h2 with ⟨p, n, hn, hid⟩
        refine ⟨p, n, ?_, hid⟩
        have : (analyzeImage s r b).1.id_counter = s.id_counter + 1 := rfl
        omega

/-- C6: across any sequence of `analyzeImage` calls within one process
lifetime — including repeated calls for the same patient id — the generated
analysis ids are pairwise distinct. -/
theorem analysis_ids_pairwise_distinct
    (s : ServiceState) (calls : List (AnalyzeRequest × BackendOutcome)) :
    ((runAnalyses s calls).2.filterMap okId).Pairwise fun a b => a ≠ b := by
  induction calls generalizing s with
  | nil =>
    rw [runAnalyses]
    exact List.Pairwise.nil
  | cons c rest ih =>
    rcases c with ⟨r, b⟩
    rw [runAnalyses]
    rw [List.filterMap_cons]
    rcases hres : (analyzeImage s r b).2 with m | res
    · simp only [okId]
      exact ih _
    · simp only [okId]
      refine List.Pairwise.cons ?_ (ih _)
      intro y hy heq
      rcases runAnalyses_ids_lower_bound rest (analyzeImage s r b).1 y hy with ⟨p, n, hn, rfl⟩
      have hcnt : (analyzeImage s r b).1.id_counter = s.id_counter + 1 := rfl
      have hidr : res.analysis_id = generateAnalysisId r.patient_id s.id_counter :=
        analyzeImage_ok_id hres
      rw [hidr] at heq
      have := generateAnalysisId_counter_inj heq
      omega

/-- A run of `analyzeImage` calls adds the call count to the processed-image
counter and the summed durations to the cumulative processing time. -/
theorem runAnalyses_accumulators :
    ∀ (calls : List (AnalyzeRequest × BackendOutcome)) (s : ServiceState),
      (runAnalyses s calls).1.total_processed_images =
        s.total_processed_images + calls.length ∧
      (runAnalyses s calls).1.total_processing_time =
        s.total_processing_time + (calls.map fun c => c.2.duration).sum := by
  intro calls
  induction calls with
  | nil =>
    intro s
    rw [runAnalyses]
    simp
  | cons c rest ih =>
    intro s
    rcases c with ⟨r, b⟩
    rw [runAnalyses]
    rcases ih (analyzeImage s r b).1 with ⟨h1, h2⟩
    constructor
    · rw [h1]
      have : (analyzeImage s r b).1.total_processed_images = s.total_processed_images + 1 := rfl
      rw [this, List.length_cons]
      omega
    · rw [h2]
      have : (analyzeImage s r b).1.total_processing_time =
          s.total_processing_time + b.duration := rfl
      rw [this, List.map_cons, List.sum_cons]
      ring

/-- C8: the health info is always consistent — the reported counter is the
accumulator, the average is cumulative time over the counter when the counter
is positive and zero when it is zero — and after N successful `analyzeImage`
calls from a fresh service it reports N processed images and the mean of the
recorded durations. -/
theorem health_info_consistency :
    (∀ (s : ServiceState) (u : ℚ),
      (getHealthInfo s u).processed_images = s.total_processed_images ∧
      (s.total_processed_images = 0 → (getHealthInfo s u).average_processing_time = 0) ∧
      (s.total_processed_images ≠ 0 →
        (getHealthInfo s u).average_processing_time =
          s.total_processing_time / (s.total_processed_images : ℚ))) ∧
    (∀ (calls : List (AnalyzeRequest × BackendOutcome)) (u : ℚ),
      (∀ e ∈ (runAnalyses initState calls).2, ∃ r, e = Except.ok r) →
        (getHealthInfo (runAnalyses initState calls).1 u).processed_images = calls.length ∧
        (calls ≠ [] →
          (getHealthInfo (runAnalyses initState calls).1 u).average_processing_time =
            (calls.map fun c => c.2.duration).sum / (calls.length : ℚ))) := by
  constructor
  · intro s u
    refine ⟨rfl, fun h0 => ?_, fun hpos => ?_⟩
    · unfold getHealthInfo
      simp only [h0, if_true]
    · unfold getHealthInfo
      simp only [hpos, if_false]
  · intro calls u _
    rcases runAnalyses_accumulators calls initState with ⟨h1, h2⟩
    have hcnt : (runAnalyses initState calls).1.total_processed_images = calls.length := by
      rw [h1]
      show 0 + calls.length = calls.length
      omega
    have htime : (runAnalyses initState calls).1.total_processing_time =
        (calls.map fun c => c.2.duration).sum := by
      rw [h2]
      show (0 : ℚ) + _ = _
      ring
    refine ⟨hcnt, fun hne => ?_⟩
    have hlen : calls.length ≠ 0 := fun h => hne (List.length_eq_zero.mp h)
    unfold getHealthInfo
    simp only [hcnt, hlen, if_false, htime]

/-- C8 witness: one successful call of duration 2 reports one processed image
and an average of 2. -/
theorem health_info_consistency_witness :
    (getHealthInfo
        (runAnalyses initState
          [(⟨"p1", "xray", "img", [], "routine"⟩, ⟨Except.ok (), Except.ok ([], "m"), 2⟩)]).1
        5).processed_images = 1 ∧
    (getHealthInfo
        (runAnalyses initState
          [(⟨"p1", "xray", "img", [], "routine"⟩, ⟨Except.ok (), Except.ok ([], "m"), 2⟩)]).1
        5).average_processing_time = 2 := by
  have h := health_info_consistency.2
    [(⟨"p1", "xray", "img", [], "routine"⟩, ⟨Except.ok (), Except.ok ([], "m"), 2⟩)] 5
    (by
      intro e he
      rw [runAnalyses, runAnalyses] at he
      rcases List.mem_singleton.mp he with rfl
      exact ⟨_, rfl⟩)
  refine ⟨h.1, ?_⟩
  have h2 := h.2 (by simp)
  rw [h2]
  norm_num

/-- C10: the HealthCheck handler sets the response status to the constant
"healthy" for every service state and uptime. -/
theorem healthcheck_status_healthy (s : ServiceState) (u : ℚ) :
    (HealthCheckHandler s u).status = "healthy" :=
  rfl

end MedicalAI
